import Mathlib

/-!
Verification development for the Yamaha YMW-258-F (MultiPCM) sound chip
emulation core (`src/devices/sound/multipcm.cpp`).

The C++ device is shallowly embedded as pure Lean functions over explicit
state records.  Machine integers are modelled as `Nat` / `Int` with explicit
reductions modulo `2^32` at the places where the C++ code can overflow or
wrap; the 64-entry / 1024-entry lookup tables whose contents are produced by
floating-point initialisation code are modelled as abstract functions stored
in a read-only device context (`Ctx`), exactly as the hot path of the C++
code treats them (opaque precomputed data).  Arrays indexed with possibly
out-of-range indices (the `steps` tables in `get_rate`, the 28-entry slot
array indexed by the `m_cur_slot` sentinel `-1`) are modelled as total
functions from `ℤ`, so that an out-of-range access denotes a read or write
of memory outside the real array, without touching the in-range entries.
-/

namespace MultiPCM

/-- Fixed-point shift for total level, playback offset and the pan tables.
Modelled from the spec: the constant `TL_SHIFT` is declared in the device
header, which is not part of the sources here; the spec describes it only as
the fixed-point shift of the total-level / offset values.  The value 12 is
the chip's fixed-point layout (7-bit level above a 12-bit fraction, matching
the 0x800-entry pan table indexed by `(pan << 7) | level`). -/
def TL_SHIFT : ℕ := 12

/-- Fixed-point shift for envelope-generator volume.
Modelled from the spec: the constant `EG_SHIFT` is declared in the device
header, which is not part of the sources here; the spec describes the
envelope volume only as stored in higher precision than the 1024-entry
exponential table (volume is shifted down by `EG_SHIFT` before indexing it).
The value 16 is the chip's fixed-point layout. -/
def EG_SHIFT : ℕ := 16

/-- Reinterpretation of an integer as a 32-bit two's complement value,
for the places where C++ `int32_t` arithmetic can wrap
(`2147483648 = 2^31`, `4294967296 = 2^32`). -/
def wrap32 (x : ℤ) : ℤ := (x + 2147483648) % 4294967296 - 2147483648

/-- Arithmetic right shift of a (conceptually `int32_t`) value by
`TL_SHIFT`, as in `slot.m_total_level >> TL_SHIFT` (`Int` division in Lean
is floor division for a positive divisor, matching the arithmetic shift). -/
def tlIndex (x : ℤ) : ℤ := x / 2 ^ TL_SHIFT

/-- Sample descriptor (`sample_t`): parsed from the 12-byte ROM metadata
record by `init_sample`. -/
structure Sample where
  start : ℕ
  loop : ℕ
  endOff : ℕ
  format : ℕ
  attackReg : ℕ
  decay1Reg : ℕ
  decay2Reg : ℕ
  decayLevel : ℕ
  releaseReg : ℕ
  keyRateScale : ℕ
  lfoVibratoReg : ℕ
  lfoAmplitudeReg : ℕ
  deriving Repr, DecidableEq

/-- Envelope generator state (`state_t`). -/
inductive EGState where
  | ATTACK
  | DECAY1
  | DECAY2
  | RELEASE
  deriving Repr, DecidableEq

/-- Envelope generator per-slot state (`envelope_gen_t`): `m_volume` is an
`int32_t`, the four rates and the decay level are `uint32_t`. -/
structure EG where
  volume : ℤ
  state : EGState
  attackRate : ℕ
  decay1Rate : ℕ
  decay2Rate : ℕ
  releaseRate : ℕ
  decayLevel : ℕ
  deriving Repr, DecidableEq

/-- LFO per-slot state (`lfo_t`): phase accumulator and step are
`uint32_t`; the C++ table and scale-table pointers are modelled as the
selection that produced them (amplitude vs pitch table, scale index). -/
structure LFO where
  phase : ℕ
  phaseStep : ℕ
  isAmplitude : Bool
  scaleSel : ℕ
  deriving Repr, DecidableEq

/-- Voice state (`slot_t`).  The 8-byte register image `m_regs` is modelled
as a total function (only indices 0..7 are ever read); `m_total_level`,
`m_dest_total_level`, `m_total_level_step` and `m_prev_sample` are
`int32_t`, the rest are unsigned. -/
structure Slot where
  regs : ℕ → ℕ
  playing : Bool
  base : ℕ
  offset : ℕ
  step : ℕ
  pan : ℕ
  totalLevel : ℤ
  destTotalLevel : ℤ
  totalLevelStep : ℤ
  prevSample : ℤ
  format : ℕ
  sample : Sample
  eg : EG
  pitchLFO : LFO
  ampLFO : LFO

/-- Read-only device context: the ROM byte-fetch callback and the
precomputed lookup tables.  The tables are filled at initialisation time by
floating-point code (`device_start`, `lfo_init`), so their contents are kept
abstract here; the two `get_rate` step tables take a `ℤ` index to model the
C++ array together with the memory around it (negative indices denote an
out-of-bounds access).  `rate` is `m_rate`, the output sample rate. -/
structure Ctx where
  readByte : ℕ → ℕ
  freqStepTable : ℕ → ℕ
  attackStep : ℤ → ℕ
  decayReleaseStep : ℤ → ℕ
  linearToExp : ℤ → ℤ
  totalLevelSteps : Fin 2 → ℤ
  lfoPhaseStep : ℕ → ℕ
  rate : ℕ

/-- Chip-level state: the 28 voices, the currently selected voice and the
per-voice sub-register address.  The C++ slot storage is a 28-element
allocation (`make_unique<slot_t[]>(28)`), and after an invalid voice
select (`m_cur_slot = -1`) a data write executes `write_slot(m_slots[-1],
…)` — an access out of bounds of that allocation, which is undefined
behavior.  To keep the embedding a total function, `slots` is modelled as
a function on all of `ℤ` (valid voices are indices 0..27); giving the
index `-1` a junk entry does not make the C++ access defined, it only
records which index the write targets. -/
structure Chip where
  slots : ℤ → Slot
  curSlot : ℤ
  address : ℕ

/-- `VALUE_TO_CHANNEL`: maps a 5-bit voice-select code to a voice index, or
`-1` for the four invalid codes. -/
def valueToChannel (v : ℕ) : ℤ :=
  [0, 1, 2, 3, 4, 5, 6, -1,
   7, 8, 9, 10, 11, 12, 13, -1,
   14, 15, 16, 17, 18, 19, 20, -1,
   21, 22, 23, 24, 25, 26, 27, -1].getD v 0

/-- `init_sample`: parse the 12-byte metadata record of sample `index`.
`read_byte` returns a `uint8_t`, hence the `&&& 0xff`. -/
def initSample (ctx : Ctx) (index : ℕ) : Sample :=
  let address := index * 12
  let rb : ℕ → ℕ := fun off => ctx.readByte (address + off) &&& 0xff
  let start0 := (rb 0 <<< 16) ||| (rb 1 <<< 8) ||| rb 2
  { start := start0 &&& 0x3fffff
    format := (start0 >>> 20) &&& 0xfe
    loop := (rb 3 <<< 8) ||| rb 4
    endOff := 0xffff - ((rb 5 <<< 8) ||| rb 6)
    attackReg := (rb 8 >>> 4) &&& 0xf
    decay1Reg := rb 8 &&& 0xf
    decay2Reg := rb 9 &&& 0xf
    decayLevel := (rb 9 >>> 4) &&& 0xf
    releaseReg := rb 10 &&& 0xf
    keyRateScale := (rb 10 >>> 4) &&& 0xf
    lfoVibratoReg := rb 7
    lfoAmplitudeReg := rb 11 &&& 0xf }

/-- `get_rate`: select an entry of a 64-entry step table.  `rate` is the
signed rate offset (the C++ parameter is declared `uint32_t` but receives a
signed `int32_t`; the value of `int32_t r = 4 * val + rate` after the
unsigned round-trip equals the signed sum for all values arising here). -/
def getRate (steps : ℤ → ℕ) (rate : ℤ) (val : ℕ) : ℕ :=
  let r : ℤ := 4 * val + rate
  if val = 0 then steps 0
  else if val = 0xf then steps 0x3f
  else if r > 0x3f then steps 0x3f
  else steps r

/-- Index selected by `get_rate` into its 64-entry step table (the `r`
actually used to subscript `steps`, after the two special cases and the
upper clamp). -/
def getRateIndex (rate : ℤ) (val : ℕ) : ℤ :=
  let r : ℤ := 4 * val + rate
  if val = 0 then 0
  else if val = 0xf then 0x3f
  else if r > 0x3f then 0x3f
  else r

/-- Octave computed by `envelope_generator_calc` from pitch register 3:
`((m_regs[3] >> 4) - 1) & 0xf`, then sign-extended from 4 bits
(the C++ subtraction happens in `int`, so `(0 - 1) & 0xf = 15`; over `ℕ`
this is `(n + 15) % 16`). -/
def egOctave (r3 : ℕ) : ℤ :=
  let o := ((r3 >>> 4) + 15) % 16
  if o &&& 8 ≠ 0 then (o : ℤ) - 16 else (o : ℤ)

/-- Signed rate offset computed by `envelope_generator_calc`:
zero when key-rate-scale is the 0xf sentinel, otherwise
`(octave + key_rate_scale) * 2` plus bit 3 of pitch register 3. -/
def egRateOffset (r3 krs : ℕ) : ℤ :=
  if krs ≠ 0xf then (egOctave r3 + krs) * 2 + (((r3 >>> 3) &&& 1) : ℕ) else 0

/-- `envelope_generator_calc`: recompute the four envelope rates and the
decay level of a slot from its sample descriptor and pitch register. -/
def envelopeGeneratorCalc (ctx : Ctx) (s : Slot) : EG :=
  let rate := egRateOffset (s.regs 3) s.sample.keyRateScale
  { s.eg with
    attackRate := getRate ctx.attackStep rate s.sample.attackReg
    decay1Rate := getRate ctx.decayReleaseStep rate s.sample.decay1Reg
    decay2Rate := getRate ctx.decayReleaseStep rate s.sample.decay2Reg
    releaseRate := getRate ctx.decayReleaseStep rate s.sample.releaseReg
    decayLevel := 0xf - s.sample.decayLevel }

/-- `retrigger_sample`: reset offset and previous sample, snap total level
to its destination, recompute envelope rates, force ATTACK with volume 0. -/
def retriggerSample (ctx : Ctx) (s : Slot) : Slot :=
  let s1 := { s with
    offset := 0
    prevSample := 0
    totalLevel := s.destTotalLevel * 2 ^ TL_SHIFT }
  let eg1 := envelopeGeneratorCalc ctx s1
  { s1 with eg := { eg1 with state := EGState.ATTACK, volume := 0 } }

/-- `lfo_compute_step`: recompute one LFO's phase step (a floating-point
computation from `LFO_FREQ[frequency]` and `m_rate`, abstracted as
`ctx.lfoPhaseStep frequency`) and select its waveform/scale tables. -/
def lfoComputeStep (ctx : Ctx) (freq scale : ℕ) (amp : Bool) (lfo : LFO) : LFO :=
  { lfo with
    phaseStep := ctx.lfoPhaseStep freq
    isAmplitude := amp
    scaleSel := scale }

/-- Behaviour of `write_slot` for sub-registers 6 and 7 (also invoked by
the sample-select cascade): store the register byte, and for a non-zero
byte recompute both LFOs from the combined register fields. -/
def writeSlot67 (ctx : Ctx) (s : Slot) (reg data : ℕ) : Slot :=
  let s1 := { s with regs := Function.update s.regs reg data }
  if data ≠ 0 then
    { s1 with
      pitchLFO := lfoComputeStep ctx ((s1.regs 6 >>> 3) &&& 7) (s1.regs 6 &&& 7) false s1.pitchLFO
      ampLFO := lfoComputeStep ctx ((s1.regs 6 >>> 3) &&& 7) (s1.regs 7 &&& 7) true s1.ampLFO }
  else s1

/-- Pitch-step computation shared by the reg-2 and reg-3 cases of
`write_slot` (the C++ `case 2: case 3:` block): octave is
`((m_regs[3] >> 4) - 1) & 0xf` (over `ℕ`: `(n + 15) % 16`), the 10-bit
pitch code indexes the frequency-step table, the entry is shifted right by
`16 - oct` when bit 3 of the octave is set and left by `oct` otherwise
(a `uint32_t` shift, hence the reduction modulo `2^32`), then divided by
the output sample rate. -/
def pitchStep (ctx : Ctx) (regs : ℕ → ℕ) : ℕ :=
  let oct := ((regs 3 >>> 4) + 15) % 16
  let pitchIdx := ((regs 3 &&& 0xf) <<< 6) ||| (regs 2 >>> 2)
  let p0 := ctx.freqStepTable pitchIdx
  let p1 := if oct &&& 8 ≠ 0 then p0 >>> (16 - oct) else (p0 <<< oct) % 4294967296
  p1 / ctx.rate

/-- `write_slot`: per-voice register decode.  The register image is updated
first, then the per-register side effects run; the reg-1 (sample select)
case re-enters the reg-6/7 handler with the descriptor's stored LFO bytes. -/
def writeSlot (ctx : Ctx) (s : Slot) (reg data : ℕ) : Slot :=
  let s1 := { s with regs := Function.update s.regs reg data }
  match reg with
  | 0 => { s1 with pan := (data >>> 4) &&& 0xf }
  | 1 =>
    let smp := initSample ctx (s1.regs 1 ||| ((s1.regs 2 &&& 1) <<< 8))
    let s2 := { s1 with sample := smp }
    let s3 := writeSlot67 ctx s2 6 smp.lfoVibratoReg
    let s4 := writeSlot67 ctx s3 7 smp.lfoAmplitudeReg
    let s5 := { s4 with base := smp.start, format := smp.format }
    if s5.playing then retriggerSample ctx s5 else s5
  | 2 => { s1 with step := pitchStep ctx s1.regs }
  | 3 => { s1 with step := pitchStep ctx s1.regs }
  | 4 =>
    if data &&& 0x80 ≠ 0 then
      retriggerSample ctx { s1 with playing := true }
    else
      if s1.playing then
        if s1.sample.releaseReg ≠ 0xf then
          { s1 with eg := { s1.eg with state := EGState.RELEASE } }
        else
          { s1 with playing := false }
      else s1
  | 5 =>
    let s2 := { s1 with destTotalLevel := (((data >>> 1) &&& 0x7f : ℕ) : ℤ) }
    if data &&& 1 = 0 then
      if tlIndex s2.totalLevel > s2.destTotalLevel then
        { s2 with totalLevelStep := ctx.totalLevelSteps 0 }
      else
        { s2 with totalLevelStep := ctx.totalLevelSteps 1 }
    else
      { s2 with totalLevel := s2.destTotalLevel * 2 ^ TL_SHIFT }
  | 6 => writeSlot67 ctx s 6 data
  | 7 => writeSlot67 ctx s 7 data
  | _ => s1

/-- `envelope_generator_update`: one envelope step of a slot; returns the
exponential gain together with the updated slot.  The `int32_t` volume
arithmetic (`+=` / `-=` of a `uint32_t` rate) goes through `wrap32`; the
gain is read from the 1024-entry table at `volume >> EG_SHIFT`. -/
def envelopeGeneratorUpdate (ctx : Ctx) (s : Slot) : ℤ × Slot :=
  match s.eg.state with
  | EGState.ATTACK =>
    let v := wrap32 (s.eg.volume + s.eg.attackRate)
    if v ≥ 0x3ff * 2 ^ EG_SHIFT then
      let st := if s.eg.decay1Rate ≥ 0x400 * 2 ^ EG_SHIFT then EGState.DECAY2 else EGState.DECAY1
      let s2 := { s with eg := { s.eg with state := st, volume := 0x3ff * 2 ^ EG_SHIFT } }
      (ctx.linearToExp (s2.eg.volume / 2 ^ EG_SHIFT), s2)
    else
      let s2 := { s with eg := { s.eg with volume := v } }
      (ctx.linearToExp (s2.eg.volume / 2 ^ EG_SHIFT), s2)
  | EGState.DECAY1 =>
    let v0 := wrap32 (s.eg.volume - s.eg.decay1Rate)
    let v := if v0 ≤ 0 then 0 else v0
    let st := if v / 2 ^ EG_SHIFT ≤ s.eg.decayLevel * 2 ^ 6 then EGState.DECAY2 else EGState.DECAY1
    let s2 := { s with eg := { s.eg with state := st, volume := v } }
    (ctx.linearToExp (s2.eg.volume / 2 ^ EG_SHIFT), s2)
  | EGState.DECAY2 =>
    let v0 := wrap32 (s.eg.volume - s.eg.decay2Rate)
    let v := if v0 ≤ 0 then 0 else v0
    let s2 := { s with eg := { s.eg with volume := v } }
    (ctx.linearToExp (s2.eg.volume / 2 ^ EG_SHIFT), s2)
  | EGState.RELEASE =>
    let v0 := wrap32 (s.eg.volume - s.eg.releaseRate)
    if v0 ≤ 0 then
      let s2 := { s with playing := false, eg := { s.eg with volume := 0 } }
      (ctx.linearToExp (s2.eg.volume / 2 ^ EG_SHIFT), s2)
    else
      let s2 := { s with eg := { s.eg with volume := v0 } }
      (ctx.linearToExp (s2.eg.volume / 2 ^ EG_SHIFT), s2)

/-- Total-level interpolation fragment of `sound_stream_update`: one render
step moves `m_total_level` by `m_total_level_step` while its level bits
differ from `m_dest_total_level`; nothing else in the render loop touches
these three fields. -/
def renderTotalLevel (s : Slot) : Slot :=
  if tlIndex s.totalLevel ≠ s.destTotalLevel then
    { s with totalLevel := s.totalLevel + s.totalLevelStep }
  else s

/-- Playback-offset advance fragment of `sound_stream_update`: add the
(possibly vibrato-modulated) effective step to the `uint32_t` offset and
wrap to the loop start when the end offset is reached. -/
def renderAdvanceOffset (s : Slot) (effStep : ℕ) : Slot :=
  let o := (s.offset + effStep) % 4294967296
  if o ≥ s.sample.endOff <<< TL_SHIFT then
    { s with offset := s.sample.loop <<< TL_SHIFT }
  else
    { s with offset := o }

/-- Chip-level register write (`multipcm_device::write`): address 0 is a
data write dispatched to the current voice, address 1 selects the current
voice through `VALUE_TO_CHANNEL`, address 2 selects the sub-register
(clamped to 7), and any other address does nothing. -/
def Chip.write (ctx : Ctx) (c : Chip) (offset data : ℕ) : Chip :=
  match offset with
  | 0 => { c with slots := Function.update c.slots c.curSlot
                    (writeSlot ctx (c.slots c.curSlot) c.address data) }
  | 1 => { c with curSlot := valueToChannel (data &&& 0x1f) }
  | 2 => { c with address := if data > 7 then 7 else data }
  | _ => c

/-- Chip-level register read (`multipcm_device::read`): always 0, and the
device state is left untouched. -/
def Chip.read (c : Chip) : ℕ × Chip := (0, c)

/-! Concrete fixtures used by witness and counterexample theorems. -/

/-- Concrete sample descriptor for witnesses. -/
def sampleC : Sample :=
  { start := 0, loop := 2, endOff := 100, format := 0
    attackReg := 5, decay1Reg := 6, decay2Reg := 7, decayLevel := 3
    releaseReg := 4, keyRateScale := 2, lfoVibratoReg := 0, lfoAmplitudeReg := 0 }

/-- Concrete slot for witnesses: a freshly constructed, silent voice. -/
def slotC : Slot :=
  { regs := fun _ => 0, playing := false, base := 0, offset := 0, step := 0
    pan := 0, totalLevel := 0, destTotalLevel := 0, totalLevelStep := 0
    prevSample := 0, format := 0, sample := sampleC
    eg := { volume := 0, state := EGState.ATTACK, attackRate := 0
            decay1Rate := 0, decay2Rate := 0, releaseRate := 0, decayLevel := 0 }
    pitchLFO := { phase := 0, phaseStep := 0, isAmplitude := false, scaleSel := 0 }
    ampLFO := { phase := 0, phaseStep := 0, isAmplitude := true, scaleSel := 0 } }

/-- Concrete device context for witnesses: a constant frequency-step table,
zero ROM, unit sample rate and the real chip's two total-level steps. -/
def ctxC : Ctx :=
  { readByte := fun _ => 0
    freqStepTable := fun _ => 0x1000
    attackStep := fun _ => 0
    decayReleaseStep := fun _ => 0
    linearToExp := fun _ => 0
    totalLevelSteps := fun i => if i = 0 then -152 else 76
    lfoPhaseStep := fun _ => 0
    rate := 1 }

/-- Concrete chip state for witnesses. -/
def chipC : Chip := { slots := fun _ => slotC, curSlot := 0, address := 0 }

/-- Concrete playing voice for witnesses. -/
def slotP : Slot := { slotC with playing := true }

/-- Concrete playing voice whose sample has release register 0xf. -/
def slotQ : Slot := { slotP with sample := { sampleC with releaseReg := 0xf } }

/-! Unfolding equations for the chip-level write, stated once and reused. -/

/-- Unfolding of `Chip.write` at register address 0 (data write). -/
theorem chipWriteDataEq (ctx : Ctx) (c : Chip) (d : ℕ) :
    Chip.write ctx c 0 d =
      { c with slots := Function.update c.slots c.curSlot
                 (writeSlot ctx (c.slots c.curSlot) c.address d) } := rfl

/-- Unfolding of `Chip.write` at register address 1 (voice select). -/
theorem chipWriteSelectEq (ctx : Ctx) (c : Chip) (d : ℕ) :
    Chip.write ctx c 1 d = { c with curSlot := valueToChannel (d &&& 0x1f) } := rfl

/-- C10: a chip-level write at any register address greater than 2 leaves
the device state unchanged, and the chip-level read returns 0 and leaves
the device state unchanged. -/
theorem write_read_out_of_range_noop (ctx : Ctx) (c : Chip) (offset data : ℕ)
    (h : 2 < offset) :
    Chip.write ctx c offset data = c ∧ (Chip.read c).1 = 0 ∧ (Chip.read c).2 = c := by
  obtain ⟨k, rfl⟩ : ∃ k, offset = k + 3 := ⟨offset - 3, by omega⟩
  exact ⟨rfl, rfl, rfl⟩

/-- C10 witness: register address 3 on the concrete chip. -/
theorem write_read_out_of_range_noop_witness :
    Chip.write ctxC chipC 3 0xab = chipC ∧
    (Chip.read chipC).1 = 0 ∧ (Chip.read chipC).2 = chipC :=
  write_read_out_of_range_noop ctxC chipC 3 0xab (by decide)

/-- C9: when advancing the playback offset by the effective step reaches or
exceeds the sample's end offset in fixed-point scale, the offset is set to
the sample's loop start in the same scale and the voice keeps playing. -/
theorem loop_wraparound (s : Slot) (effStep : ℕ)
    (h : (s.offset + effStep) % 4294967296 ≥ s.sample.endOff <<< TL_SHIFT) :
    (renderAdvanceOffset s effStep).offset = s.sample.loop <<< TL_SHIFT ∧
    (renderAdvanceOffset s effStep).playing = s.playing := by
  unfold renderAdvanceOffset
  rw [if_pos h]
  exact ⟨rfl, rfl⟩

/-- C9 witness: a concrete voice exactly at its end offset wraps to the
loop start (`2 <<< 12 = 8192`). -/
theorem loop_wraparound_witness :
    (renderAdvanceOffset { slotC with offset := 409600 } 0).offset = 8192 ∧
    (renderAdvanceOffset { slotC with offset := 409600 } 0).playing = false := by
  obtain ⟨h1, h2⟩ := loop_wraparound { slotC with offset := 409600 } 0 (by decide)
  exact ⟨by rw [h1]; rfl, by rw [h2]; rfl⟩

/-- C3: the `get_rate` index analysis at the failing input.  The rate
offset `-16` is produced by `envelope_generator_calc` for pitch register
`0x90` (octave `-8`) with key-rate-scale 0, and for envelope register value
1 the selected table index is `-12`: the code clamps only indices above
`0x3f`, so this below-zero index reaches the 64-entry table unchecked
(an out-of-bounds read), while register values 0 and 0xf and too-large
indices are handled as the claim states. -/
theorem get_rate_negative_index :
    egRateOffset 0x90 0 = -16 ∧
    getRateIndex (-16) 1 = -12 ∧
    getRateIndex (-16) 1 < 0 ∧
    getRateIndex (-16) 0 = 0 ∧ getRateIndex 45 0 = 0 ∧
    getRateIndex (-16) 0xf = 0x3f ∧ getRateIndex 45 0xf = 0x3f ∧
    getRateIndex 45 7 = 0x3f := by decide

/-- C5: evaluation of the code at the failing input.  The four invalid
voice-select codes map to the `-1` sentinel, `-1` is outside the valid
voice range 0..27 of the 28-element slot allocation, and the subsequent
data write dispatches `write_slot` through exactly that index: in the C++
this is `write_slot(m_slots[-1], …)`, a write out of bounds of the
allocation (undefined behavior), so the claimed defined, fault-free,
voice-preserving absorption is not what the code provides. -/
theorem invalid_voice_select_oob :
    valueToChannel 7 = -1 ∧ valueToChannel 15 = -1 ∧
    valueToChannel 23 = -1 ∧ valueToChannel 31 = -1 ∧
    (Chip.write ctxC chipC 1 7).curSlot = -1 ∧
    ((Chip.write ctxC chipC 1 7).curSlot < 0 ∨ 28 ≤ (Chip.write ctxC chipC 1 7).curSlot) ∧
    (Chip.write ctxC (Chip.write ctxC chipC 1 7) 0 0x12).slots =
      Function.update (Chip.write ctxC chipC 1 7).slots (-1)
        (writeSlot ctxC ((Chip.write ctxC chipC 1 7).slots (-1))
          (Chip.write ctxC chipC 1 7).address 0x12) := by
  refine ⟨rfl, rfl, rfl, rfl, rfl, Or.inl (by decide), ?_⟩
  rw [chipWriteDataEq]
  rfl

/-! C1: pitch-step shift direction. -/

/-- Pitch-step formula as the claim words it: look up the 10-bit pitch code
in the frequency-step table, shift the entry LEFT when the 4-bit octave
value is ≥ 8 (negative) and RIGHT when it is < 8, then divide by the
output sample rate. -/
def specStepClaimed (ctx : Ctx) (regs : ℕ → ℕ) : ℕ :=
  let oct := ((regs 3 >>> 4) + 15) % 16
  let pitchIdx := ((regs 3 &&& 0xf) <<< 6) ||| (regs 2 >>> 2)
  let f := ctx.freqStepTable pitchIdx
  (if 8 ≤ oct then (f <<< (16 - oct)) % 4294967296 else f >>> oct) / ctx.rate

/-- Pitch-step formula as amended: shift the table entry RIGHT by
`16 - octave` when the 4-bit octave value is ≥ 8 (negative) and LEFT by
`octave` (truncated to 32 bits) when it is < 8, then divide by the output
sample rate. -/
def specStepAmended (ctx : Ctx) (regs : ℕ → ℕ) : ℕ :=
  let oct := ((regs 3 >>> 4) + 15) % 16
  let pitchIdx := ((regs 3 &&& 0xf) <<< 6) ||| (regs 2 >>> 2)
  let f := ctx.freqStepTable pitchIdx
  (if 8 ≤ oct then f >>> (16 - oct) else (f <<< oct) % 4294967296) / ctx.rate

/-- C1 counterexample: a pitch write with octave value 4 (< 8, positive).
The code shifts the table entry LEFT by 4 (`0x1000` becomes `0x10000`),
while the claim's direction (shift right when the octave is < 8) would
give `0x100`. -/
theorem pitch_shift_direction_counterexample :
    (writeSlot ctxC slotC 3 0x50).step = 0x10000 ∧
    specStepClaimed ctxC (Function.update slotC.regs 3 0x50) = 0x100 ∧
    (0x10000 : ℕ) ≠ 0x100 :=
  ⟨rfl, rfl, by decide⟩

/-- Bit 3 of a 4-bit value is set exactly when the value is at least 8. -/
theorem and8_iff (o : ℕ) (h : o < 16) : o &&& 8 ≠ 0 ↔ 8 ≤ o := by
  have key : ∀ m, m < 16 → (m &&& 8 ≠ 0 ↔ 8 ≤ m) := by decide
  exact key o h

/-- Bridge between the code's bit-test on the octave and the amended
claim's ordering test. -/
theorem pitchStep_eq_amended (ctx : Ctx) (regs : ℕ → ℕ) :
    pitchStep ctx regs = specStepAmended ctx regs := by
  simp only [pitchStep, specStepAmended]
  have hlt : ((regs 3 >>> 4) + 15) % 16 < 16 := Nat.mod_lt _ (by norm_num)
  congr 1
  exact if_congr (and8_iff _ hlt) rfl rfl

/-- C1 (amended): every write to pitch sub-register 2 or 3 sets the
per-sample playback step to the frequency-step table entry for the 10-bit
pitch code, shifted RIGHT by `16 - octave` when the 4-bit octave value is
≥ 8 (negative) and LEFT by `octave` when it is < 8, divided by the output
sample rate. -/
theorem pitch_step_amended (ctx : Ctx) (s : Slot) (reg data : ℕ)
    (h : reg = 2 ∨ reg = 3) :
    (writeSlot ctx s reg data).step = specStepAmended ctx (Function.update s.regs reg data) := by
  rcases h with rfl | rfl <;> exact pitchStep_eq_amended ctx _

/-- C1 witness: the amended formula at a concrete pitch write. -/
theorem pitch_step_amended_witness :
    (writeSlot ctxC slotC 3 0x50).step = specStepAmended ctxC (Function.update slotC.regs 3 0x50) :=
  pitch_step_amended ctxC slotC 3 0x50 (Or.inr rfl)

/-! C2: key-on / key-off semantics. -/

/-- Unfolding of `write_slot` at sub-register 4 (key on/off). -/
theorem writeSlotKeyEq (ctx : Ctx) (s : Slot) (data : ℕ) :
    writeSlot ctx s 4 data =
      (if data &&& 0x80 ≠ 0 then
        retriggerSample ctx { s with regs := Function.update s.regs 4 data, playing := true }
      else if s.playing then
        (if s.sample.releaseReg ≠ 0xf then
          { s with regs := Function.update s.regs 4 data
                   eg := { s.eg with state := EGState.RELEASE } }
        else
          { s with regs := Function.update s.regs 4 data, playing := false })
      else { s with regs := Function.update s.regs 4 data }) := rfl

/-- C2: a key-on write (top bit set) marks the voice playing and
retriggers it (offset 0, previous sample 0, total level snapped to its
destination, envelope rates recomputed from the register image and sample
descriptor, envelope forced to ATTACK with volume 0); a key-off write
while playing enters RELEASE when the sample's release register is not
0xf, and otherwise immediately stops the voice without entering RELEASE. -/
theorem key_on_off_semantics (ctx : Ctx) (s : Slot) (data : ℕ) :
    ((data &&& 0x80 ≠ 0) →
      (writeSlot ctx s 4 data).playing = true ∧
      (writeSlot ctx s 4 data).offset = 0 ∧
      (writeSlot ctx s 4 data).prevSample = 0 ∧
      (writeSlot ctx s 4 data).totalLevel = s.destTotalLevel * 2 ^ TL_SHIFT ∧
      (writeSlot ctx s 4 data).eg.state = EGState.ATTACK ∧
      (writeSlot ctx s 4 data).eg.volume = 0 ∧
      (writeSlot ctx s 4 data).eg.attackRate =
        getRate ctx.attackStep (egRateOffset (s.regs 3) s.sample.keyRateScale) s.sample.attackReg ∧
      (writeSlot ctx s 4 data).eg.decay1Rate =
        getRate ctx.decayReleaseStep (egRateOffset (s.regs 3) s.sample.keyRateScale) s.sample.decay1Reg ∧
      (writeSlot ctx s 4 data).eg.decay2Rate =
        getRate ctx.decayReleaseStep (egRateOffset (s.regs 3) s.sample.keyRateScale) s.sample.decay2Reg ∧
      (writeSlot ctx s 4 data).eg.releaseRate =
        getRate ctx.decayReleaseStep (egRateOffset (s.regs 3) s.sample.keyRateScale) s.sample.releaseReg) ∧
    ((data &&& 0x80 = 0) → s.playing = true →
      (s.sample.releaseReg ≠ 0xf →
        (writeSlot ctx s 4 data).eg.state = EGState.RELEASE ∧
        (writeSlot ctx s 4 data).playing = true) ∧
      (s.sample.releaseReg = 0xf →
        (writeSlot ctx s 4 data).playing = false ∧
        (writeSlot ctx s 4 data).eg.state = s.eg.state)) := by
  constructor
  · intro h
    rw [writeSlotKeyEq, if_pos h]
    exact ⟨rfl, rfl, rfl, rfl, rfl, rfl, rfl, rfl, rfl, rfl⟩
  · intro h hp
    rw [writeSlotKeyEq, if_neg (not_not_intro h), if_pos hp]
    refine ⟨fun hrel => ?_, fun hrel => ?_⟩
    · rw [if_pos hrel]
      exact ⟨rfl, hp⟩
    · rw [if_neg (not_not_intro hrel)]
      exact ⟨rfl, rfl⟩

/-- C2 witness: key-on on the concrete voice, then key-off with release
register 4 (enters RELEASE) and with release register 0xf (stops
immediately, state untouched). -/
theorem key_on_off_semantics_witness :
    ((writeSlot ctxC slotC 4 0x80).playing = true ∧
     (writeSlot ctxC slotC 4 0x80).offset = 0 ∧
     (writeSlot ctxC slotC 4 0x80).eg.state = EGState.ATTACK ∧
     (writeSlot ctxC slotC 4 0x80).eg.volume = 0) ∧
    ((writeSlot ctxC slotP 4 0).eg.state = EGState.RELEASE ∧
     (writeSlot ctxC slotP 4 0).playing = true) ∧
    ((writeSlot ctxC slotQ 4 0).playing = false) := by
  have h1 := (key_on_off_semantics ctxC slotC 0x80).1 (by decide)
  have h2 := ((key_on_off_semantics ctxC slotP 0).2 (by decide) rfl).1 (by decide)
  have h3 := ((key_on_off_semantics ctxC slotQ 0).2 (by decide) rfl).2 rfl
  exact ⟨⟨h1.1, h1.2.1, h1.2.2.2.2.1, h1.2.2.2.2.2.1⟩, h2, h3.1⟩

/-! C4: envelope-rate octave derivation. -/

/-- Octave as the claim words it: the pitch register's high nibble read as
a signed 4-bit value centered so that raw value 8 maps to 0. -/
def claimedOctave (r3 : ℕ) : ℤ := ((r3 >>> 4 : ℕ) : ℤ) - 8

/-- Rate offset as the claim words it, using `claimedOctave`. -/
def claimedRateOffset (r3 krs : ℕ) : ℤ :=
  if krs = 0xf then 0 else (claimedOctave r3 + krs) * 2 + (((r3 >>> 3) &&& 1) : ℕ)

/-- Octave as amended: the pitch register's high nibble MINUS ONE, reduced
mod 16 and read as a signed 4-bit two's-complement value (nibble 1 maps to
0, nibble 9 to -8, nibble 8 to +7). -/
def amendedOctave (r3 : ℕ) : ℤ :=
  let m := (((r3 >>> 4 : ℕ) : ℤ) - 1) % 16
  if 8 ≤ m then m - 16 else m

/-- Rate offset as amended, using `amendedOctave`. -/
def amendedRateOffset (r3 krs : ℕ) : ℤ :=
  if krs = 0xf then 0 else (amendedOctave r3 + krs) * 2 + (((r3 >>> 3) &&& 1) : ℕ)

/-- C4 counterexample: with pitch register 0x80 (high nibble 8) and
key-rate-scale 0, the code's rate offset is 14 (octave `(8-1) & 0xf = 7`),
while the claim's centering (nibble 8 maps to octave 0) would give 0. -/
theorem eg_rate_octave_counterexample :
    egRateOffset 0x80 0 = 14 ∧ claimedRateOffset 0x80 0 = 0 ∧ (14 : ℤ) ≠ 0 := by
  refine ⟨by decide, by decide, by decide⟩

/-- C4 (amended): the envelope rate offset is 0 when key-rate-scale is
0xf and otherwise `(octave + key_rate_scale) * 2` plus bit 3 of pitch
register 3, where octave is the high nibble minus one, taken mod 16 and
sign-extended from 4 bits. -/
theorem eg_rate_offset_amended (r3 krs : ℕ) :
    egRateOffset r3 krs = amendedRateOffset r3 krs := by
  have hoct : egOctave r3 = amendedOctave r3 := by
    have hk : ((r3 >>> 4) + 15) % 16 < 16 := Nat.mod_lt _ (by norm_num)
    have hand := and8_iff _ hk
    simp only [egOctave, amendedOctave, hand]
    split <;> split <;> omega
  by_cases hkrs : krs = 0xf
  · simp [egRateOffset, amendedRateOffset, hkrs]
  · simp [egRateOffset, amendedRateOffset, hkrs, hoct]

/-! C6: the ATTACK step of the envelope generator. -/

/-- C6: in ATTACK state, one envelope step adds the attack rate to the
volume; when the sum reaches the maximum `0x3ff << EG_SHIFT` the volume is
clamped to that maximum and the state moves to DECAY1, or directly to
DECAY2 when the decay1 rate is at or above the `0x400 << EG_SHIFT`
sentinel; the volume never decreases.  The volume and rate bounds are the
ranges the initialisation code gives them (table entries are at most
`0x400 << EG_SHIFT`), under which the `int32_t` arithmetic cannot wrap. -/
theorem attack_envelope_step (ctx : Ctx) (s : Slot)
    (hstate : s.eg.state = EGState.ATTACK)
    (hv0 : 0 ≤ s.eg.volume) (hv1 : s.eg.volume ≤ 0x3ff * 2 ^ EG_SHIFT)
    (hr : (s.eg.attackRate : ℤ) ≤ 0x400 * 2 ^ EG_SHIFT) :
    ((s.eg.volume + s.eg.attackRate < 0x3ff * 2 ^ EG_SHIFT →
       (envelopeGeneratorUpdate ctx s).2.eg.volume = s.eg.volume + s.eg.attackRate ∧
       (envelopeGeneratorUpdate ctx s).2.eg.state = EGState.ATTACK) ∧
     (0x3ff * 2 ^ EG_SHIFT ≤ s.eg.volume + s.eg.attackRate →
       (envelopeGeneratorUpdate ctx s).2.eg.volume = 0x3ff * 2 ^ EG_SHIFT ∧
       (s.eg.decay1Rate < 0x400 * 2 ^ EG_SHIFT →
         (envelopeGeneratorUpdate ctx s).2.eg.state = EGState.DECAY1) ∧
       (0x400 * 2 ^ EG_SHIFT ≤ s.eg.decay1Rate →
         (envelopeGeneratorUpdate ctx s).2.eg.state = EGState.DECAY2)) ∧
     s.eg.volume ≤ (envelopeGeneratorUpdate ctx s).2.eg.volume) := by
  have hrn : 0 ≤ (s.eg.attackRate : ℤ) := Int.natCast_nonneg _
  have hw : wrap32 (s.eg.volume + s.eg.attackRate) = s.eg.volume + s.eg.attackRate := by
    unfold wrap32
    simp only [EG_SHIFT] at hv1 hr
    omega
  unfold envelopeGeneratorUpdate
  rw [hstate]
  simp only [hw]
  rcases le_or_lt (0x3ff * 2 ^ EG_SHIFT : ℤ) (s.eg.volume + s.eg.attackRate) with hge | hlt
  · rw [if_pos (by exact hge)]
    refine ⟨fun hc => absurd hc (not_lt.mpr hge), fun _ => ⟨rfl, fun hd => ?_, fun hd => ?_⟩, hv1⟩
    · rw [if_neg (not_le.mpr hd)]
    · rw [if_pos hd]
  · rw [if_neg (not_le.mpr hlt)]
    exact ⟨fun _ => ⟨rfl, hstate⟩, fun hc => absurd hc (not_le.mpr hlt),
      le_add_of_nonneg_right hrn⟩

/-- C6 witness: one ATTACK step of the concrete silent voice (attack rate
0, volume 0) stays below the maximum and remains in ATTACK. -/
theorem attack_envelope_step_witness :
    (envelopeGeneratorUpdate ctxC slotC).2.eg.volume = slotC.eg.volume + slotC.eg.attackRate ∧
    (envelopeGeneratorUpdate ctxC slotC).2.eg.state = EGState.ATTACK := by
  have h := attack_envelope_step ctxC slotC rfl (by decide) (by decide) (by decide)
  exact h.1 (by decide)

/-! C8: the pan / volume table law.  The table contents are produced once
at initialisation time by floating-point code in `device_start`; those
floating-point expressions are modelled over `ℝ` (the gains before the
final `value_to_fixed` quantisation). -/

/-- Decibel-to-linear conversion `pow(10.0f, db / 20.0f)` used throughout
the table builder. -/
noncomputable def dbToGain (db : ℝ) : ℝ := (10 : ℝ) ^ (db / 20)

/-- The conversion to linear gain is positive. -/
theorem dbToGain_pos (db : ℝ) : 0 < dbToGain db :=
  Real.rpow_pos_of_pos (by norm_num) _

/-- The conversion to linear gain is strictly monotone. -/
theorem dbToGain_lt_dbToGain {a b : ℝ} (h : a < b) : dbToGain a < dbToGain b := by
  unfold dbToGain
  exact (Real.rpow_lt_rpow_left_iff (by norm_num)).mpr (by linarith)

/-- A negative decibel value converts to a gain below 1. -/
theorem dbToGain_lt_one {db : ℝ} (h : db < 0) : dbToGain db < 1 := by
  unfold dbToGain
  exact Real.rpow_lt_one_of_one_lt_of_neg (by norm_num) (by linarith)

/-- Left pan attenuation computed by `device_start` for pan index `pan`:
0 at the center-mute index 8, 1 at index 0 and on the left-deflected side
(bit 3 set), and `10 ^ (pan * -12 / 4 / 20)` on the right-deflected side,
with the extreme deflection (`pan & 7 == 7`) forced to 0. -/
noncomputable def panAttenuationLeft (pan : ℕ) : ℝ :=
  if pan = 8 then 0
  else if pan = 0 then 1
  else if pan &&& 8 ≠ 0 then 1
  else if pan &&& 7 = 7 then 0
  else dbToGain ((pan : ℝ) * (-12) / 4)

/-- Right pan attenuation computed by `device_start` for pan index `pan`:
0 at the center-mute index 8, 1 at index 0 and on the right-deflected
side, and the mirror law in `inverted_pan = 0x10 - pan` on the
left-deflected side, with the extreme deflection forced to 0. -/
noncomputable def panAttenuationRight (pan : ℕ) : ℝ :=
  if pan = 8 then 0
  else if pan = 0 then 1
  else if pan &&& 8 ≠ 0 then
    (if (16 - pan) &&& 7 = 7 then 0
     else dbToGain (((16 - pan : ℕ) : ℝ) * (-12) / 4))
  else 1

/-- Per-level volume factor `powf(10.0f, level * -24 / 64 / 20) / 4`
computed by `device_start`. -/
noncomputable def totalLevelVolume (level : ℕ) : ℝ :=
  dbToGain ((level : ℝ) * (-24) / 64) / 4

/-- Left entry of the pan/volume table at `(pan << 7) | level`, before the
fixed-point conversion. -/
noncomputable def leftPanGain (pan level : ℕ) : ℝ :=
  panAttenuationLeft pan * totalLevelVolume level

/-- Right entry of the pan/volume table at `(pan << 7) | level`, before
the fixed-point conversion. -/
noncomputable def rightPanGain (pan level : ℕ) : ℝ :=
  panAttenuationRight pan * totalLevelVolume level

/-- Unquantised pan law: before the `value_to_fixed` conversion, pan
index 8 mutes both channels, pan index 0 gives both channels the full
level volume, and deflecting the pan toward one side strictly decreases
the opposite channel's gain at each step of deflection, reaching zero at
the extreme (pan 7 for the left channel, pan 9 for the right channel,
whose deflection grows as the index walks down from 15). -/
theorem pan_law (level : ℕ) :
    (leftPanGain 8 level = 0 ∧ rightPanGain 8 level = 0) ∧
    (leftPanGain 0 level = totalLevelVolume level ∧
     rightPanGain 0 level = totalLevelVolume level) ∧
    (leftPanGain 7 level = 0 ∧
     leftPanGain 7 level < leftPanGain 6 level ∧
     leftPanGain 6 level < leftPanGain 5 level ∧
     leftPanGain 5 level < leftPanGain 4 level ∧
     leftPanGain 4 level < leftPanGain 3 level ∧
     leftPanGain 3 level < leftPanGain 2 level ∧
     leftPanGain 2 level < leftPanGain 1 level ∧
     leftPanGain 1 level < leftPanGain 0 level) ∧
    (rightPanGain 9 level = 0 ∧
     rightPanGain 9 level < rightPanGain 10 level ∧
     rightPanGain 10 level < rightPanGain 11 level ∧
     rightPanGain 11 level < rightPanGain 12 level ∧
     rightPanGain 12 level < rightPanGain 13 level ∧
     rightPanGain 13 level < rightPanGain 14 level ∧
     rightPanGain 14 level < rightPanGain 15 level ∧
     rightPanGain 15 level < rightPanGain 0 level) := by
  have htl : 0 < totalLevelVolume level := by
    unfold totalLevelVolume
    exact div_pos (dbToGain_pos _) (by norm_num)
  refine ⟨⟨?_, ?_⟩, ⟨?_, ?_⟩, ⟨?_, ?_, ?_, ?_, ?_, ?_, ?_, ?_⟩,
    ⟨?_, ?_, ?_, ?_, ?_, ?_, ?_, ?_⟩⟩
  · simp [leftPanGain, panAttenuationLeft]
  · simp [rightPanGain, panAttenuationRight]
  · simp [leftPanGain, panAttenuationLeft]
  · simp [rightPanGain, panAttenuationRight]
  · have h78 : (7 : ℕ) &&& 8 = 0 := by decide
    simp [leftPanGain, panAttenuationLeft, h78]
  · refine mul_lt_mul_of_pos_right ?_ htl
    norm_num [panAttenuationLeft]
    exact dbToGain_pos _
  · refine mul_lt_mul_of_pos_right ?_ htl
    norm_num [panAttenuationLeft]
    exact dbToGain_lt_dbToGain (by norm_num)
  · refine mul_lt_mul_of_pos_right ?_ htl
    norm_num [panAttenuationLeft]
    exact dbToGain_lt_dbToGain (by norm_num)
  · refine mul_lt_mul_of_pos_right ?_ htl
    norm_num [panAttenuationLeft]
    exact dbToGain_lt_dbToGain (by norm_num)
  · refine mul_lt_mul_of_pos_right ?_ htl
    norm_num [panAttenuationLeft]
    exact dbToGain_lt_dbToGain (by norm_num)
  · refine mul_lt_mul_of_pos_right ?_ htl
    norm_num [panAttenuationLeft]
    exact dbToGain_lt_dbToGain (by norm_num)
  · refine mul_lt_mul_of_pos_right ?_ htl
    norm_num [panAttenuationLeft]
    exact dbToGain_lt_one (by norm_num)
  · simp [rightPanGain, panAttenuationRight]
  · refine mul_lt_mul_of_pos_right ?_ htl
    norm_num [panAttenuationRight]
    exact dbToGain_pos _
  · refine mul_lt_mul_of_pos_right ?_ htl
    norm_num [panAttenuationRight]
    exact dbToGain_lt_dbToGain (by norm_num)
  · refine mul_lt_mul_of_pos_right ?_ htl
    norm_num [panAttenuationRight]
    exact dbToGain_lt_dbToGain (by norm_num)
  · refine mul_lt_mul_of_pos_right ?_ htl
    norm_num [panAttenuationRight]
    exact dbToGain_lt_dbToGain (by norm_num)
  · refine mul_lt_mul_of_pos_right ?_ htl
    norm_num [panAttenuationRight]
    exact dbToGain_lt_dbToGain (by norm_num)
  · refine mul_lt_mul_of_pos_right ?_ htl
    norm_num [panAttenuationRight]
    exact dbToGain_lt_dbToGain (by norm_num)
  · refine mul_lt_mul_of_pos_right ?_ htl
    norm_num [panAttenuationRight]
    exact dbToGain_lt_one (by norm_num)

/-- Left entry of the pan/volume table as stored by `device_start`:
`value_to_fixed(TL_SHIFT, pan_left * total_level)` truncates the
(nonnegative) float product toward zero, i.e. takes the floor of
`(1 << TL_SHIFT)` times the gain. -/
noncomputable def leftPanTableEntry (pan level : ℕ) : ℤ :=
  ⌊(2 ^ TL_SHIFT : ℝ) * leftPanGain pan level⌋

/-- Right entry of the pan/volume table as stored by `device_start`. -/
noncomputable def rightPanTableEntry (pan level : ℕ) : ℤ :=
  ⌊(2 ^ TL_SHIFT : ℝ) * rightPanGain pan level⌋

/-- Lower bound on a rational-exponent power of 10, checked by raising
both sides to the denominator's power. -/
theorem ten_rpow_gt (c : ℝ) (num den : ℕ) (hden : 0 < den)
    (h : c ^ den < (10 : ℝ) ^ num) : c < (10 : ℝ) ^ ((num : ℝ) / (den : ℝ)) := by
  have hpos : (0 : ℝ) < (10 : ℝ) ^ ((num : ℝ) / (den : ℝ)) :=
    Real.rpow_pos_of_pos (by norm_num) _
  refine lt_of_pow_lt_pow_left₀ den (le_of_lt hpos) ?_
  have heq : ((10 : ℝ) ^ ((num : ℝ) / (den : ℝ))) ^ den = (10 : ℝ) ^ num := by
    rw [← Real.rpow_natCast ((10 : ℝ) ^ ((num : ℝ) / (den : ℝ))) den,
      ← Real.rpow_mul (by norm_num)]
    rw [div_mul_cancel₀ _ (by exact_mod_cast hden.ne' : ((den : ℝ)) ≠ 0)]
    exact Real.rpow_natCast 10 num
  rw [heq]
  exact h

/-- Combination of the two decibel factors of a table entry into a single
power of 10. -/
theorem entry_exponent (a b c : ℝ) (h : a + b = c) :
    (4096 : ℝ) * ((10 : ℝ) ^ a * ((10 : ℝ) ^ b / 4)) = 1024 * (10 : ℝ) ^ c := by
  rw [← h, Real.rpow_add (by norm_num : (0 : ℝ) < 10)]
  ring

/-- A table product below one twelfth-bit fixed-point unit stores 0. -/
theorem entry_eq_zero (y : ℝ) (hy : (1024 : ℝ) < (10 : ℝ) ^ y) :
    ⌊(1024 : ℝ) * (10 : ℝ) ^ (-y)⌋ = 0 := by
  have hpos : (0 : ℝ) < (10 : ℝ) ^ y := lt_trans (by norm_num) hy
  have h01 : (0 : ℝ) ≤ 1024 * (10 : ℝ) ^ (-y) := by positivity
  have h11 : (1024 : ℝ) * (10 : ℝ) ^ (-y) < 1 := by
    rw [Real.rpow_neg (by norm_num : (0 : ℝ) ≤ 10)]
    calc (1024 : ℝ) * ((10 : ℝ) ^ y)⁻¹ < (10 : ℝ) ^ y * ((10 : ℝ) ^ y)⁻¹ :=
          mul_lt_mul_of_pos_right hy (inv_pos.mpr hpos)
      _ = 1 := mul_inv_cancel₀ (ne_of_gt hpos)
  exact Int.floor_eq_zero_iff.mpr ⟨h01, h11⟩

/-- C8 counterexample: at the maximum attenuation level 0x7f the stored
left-channel table entries for pans 5 and 6 are both 0 (the unquantised
gains `1024 * 10 ^ (-501/160) ≈ 0.757` and `1024 * 10 ^ (-105/32) ≈ 0.536`
fixed-point units both truncate to 0), so the stored gain does not
strictly decrease from deflection 5 to deflection 6. -/
theorem pan_table_tie_counterexample :
    leftPanTableEntry 5 0x7f = 0 ∧ leftPanTableEntry 6 0x7f = 0 ∧
    ¬ leftPanTableEntry 6 0x7f < leftPanTableEntry 5 0x7f := by
  have hb : totalLevelVolume 0x7f = (10 : ℝ) ^ (((127 : ℕ) : ℝ) * (-24) / 64 / 20) / 4 := rfl
  have hb2 : (((127 : ℕ) : ℝ) * (-24) / 64 / 20) = (-(381 / 160) : ℝ) := by norm_num
  have h5 : leftPanTableEntry 5 0x7f = 0 := by
    have ha : panAttenuationLeft 5 = (10 : ℝ) ^ (((5 : ℕ) : ℝ) * (-12) / 4 / 20) := rfl
    have hx : (2 ^ TL_SHIFT : ℝ) * leftPanGain 5 0x7f =
        1024 * (10 : ℝ) ^ (-(501 / 160) : ℝ) := by
      unfold leftPanGain
      rw [ha, hb, hb2]
      rw [show (((5 : ℕ) : ℝ) * (-12) / 4 / 20) = (-(3 / 4) : ℝ) by norm_num]
      rw [show (2 ^ TL_SHIFT : ℝ) = 4096 by norm_num [TL_SHIFT]]
      exact entry_exponent _ _ _ (by norm_num)
    unfold leftPanTableEntry
    rw [hx]
    have hgt : (1024 : ℝ) < (10 : ℝ) ^ ((501 : ℝ) / 160) := by
      have h := ten_rpow_gt 1024 501 160 (by norm_num) (by norm_num)
      push_cast at h
      exact h
    exact entry_eq_zero _ hgt
  have h6 : leftPanTableEntry 6 0x7f = 0 := by
    have ha : panAttenuationLeft 6 = (10 : ℝ) ^ (((6 : ℕ) : ℝ) * (-12) / 4 / 20) := rfl
    have hx : (2 ^ TL_SHIFT : ℝ) * leftPanGain 6 0x7f =
        1024 * (10 : ℝ) ^ (-(105 / 32) : ℝ) := by
      unfold leftPanGain
      rw [ha, hb, hb2]
      rw [show (((6 : ℕ) : ℝ) * (-12) / 4 / 20) = (-(9 / 10) : ℝ) by norm_num]
      rw [show (2 ^ TL_SHIFT : ℝ) = 4096 by norm_num [TL_SHIFT]]
      exact entry_exponent _ _ _ (by norm_num)
    unfold leftPanTableEntry
    rw [hx]
    have hgt : (1024 : ℝ) < (10 : ℝ) ^ ((105 : ℝ) / 32) := by
      have h := ten_rpow_gt 1024 105 32 (by norm_num) (by norm_num)
      push_cast at h
      exact h
    exact entry_eq_zero _ hgt
  exact ⟨h5, h6, by rw [h5, h6]; exact lt_irrefl 0⟩

/-- C8 (amended): in the stored pan/volume table, for every level, pan
index 8 stores zero gain on both channels, pan index 0 stores the full
per-level gain on both channels, and for a pan deflected toward one side
the stored gain on the opposite channel never increases as the deflection
increases and reaches zero at the extreme deflection; the unquantised
gains strictly decrease at every deflection step, but the fixed-point
conversion can merge adjacent entries. -/
theorem pan_table_law (level : ℕ) :
    (leftPanTableEntry 8 level = 0 ∧ rightPanTableEntry 8 level = 0) ∧
    (leftPanTableEntry 0 level = ⌊(2 ^ TL_SHIFT : ℝ) * totalLevelVolume level⌋ ∧
     rightPanTableEntry 0 level = ⌊(2 ^ TL_SHIFT : ℝ) * totalLevelVolume level⌋) ∧
    (leftPanTableEntry 7 level = 0 ∧
     leftPanTableEntry 7 level ≤ leftPanTableEntry 6 level ∧
     leftPanTableEntry 6 level ≤ leftPanTableEntry 5 level ∧
     leftPanTableEntry 5 level ≤ leftPanTableEntry 4 level ∧
     leftPanTableEntry 4 level ≤ leftPanTableEntry 3 level ∧
     leftPanTableEntry 3 level ≤ leftPanTableEntry 2 level ∧
     leftPanTableEntry 2 level ≤ leftPanTableEntry 1 level ∧
     leftPanTableEntry 1 level ≤ leftPanTableEntry 0 level) ∧
    (rightPanTableEntry 9 level = 0 ∧
     rightPanTableEntry 9 level ≤ rightPanTableEntry 10 level ∧
     rightPanTableEntry 10 level ≤ rightPanTableEntry 11 level ∧
     rightPanTableEntry 11 level ≤ rightPanTableEntry 12 level ∧
     rightPanTableEntry 12 level ≤ rightPanTableEntry 13 level ∧
     rightPanTableEntry 13 level ≤ rightPanTableEntry 14 level ∧
     rightPanTableEntry 14 level ≤ rightPanTableEntry 15 level ∧
     rightPanTableEntry 15 level ≤ rightPanTableEntry 0 level) ∧
    (leftPanGain 7 level = 0 ∧
     leftPanGain 7 level < leftPanGain 6 level ∧
     leftPanGain 6 level < leftPanGain 5 level ∧
     leftPanGain 5 level < leftPanGain 4 level ∧
     leftPanGain 4 level < leftPanGain 3 level ∧
     leftPanGain 3 level < leftPanGain 2 level ∧
     leftPanGain 2 level < leftPanGain 1 level ∧
     leftPanGain 1 level < leftPanGain 0 level) ∧
    (rightPanGain 9 level = 0 ∧
     rightPanGain 9 level < rightPanGain 10 level ∧
     rightPanGain 10 level < rightPanGain 11 level ∧
     rightPanGain 11 level < rightPanGain 12 level ∧
     rightPanGain 12 level < rightPanGain 13 level ∧
     rightPanGain 13 level < rightPanGain 14 level ∧
     rightPanGain 14 level < rightPanGain 15 level ∧
     rightPanGain 15 level < rightPanGain 0 level) := by
  obtain ⟨⟨l8, r8⟩, ⟨l0, r0⟩, hleft, hright⟩ := pan_law level
  obtain ⟨l7, c76, c65, c54, c43, c32, c21, c10⟩ := hleft
  obtain ⟨r9, d1, d2, d3, d4, d5, d6, d7⟩ := hright
  have hmono : ∀ a b : ℝ, a ≤ b →
      ⌊(2 ^ TL_SHIFT : ℝ) * a⌋ ≤ ⌊(2 ^ TL_SHIFT : ℝ) * b⌋ := by
    intro a b h
    exact Int.floor_mono (mul_le_mul_of_nonneg_left h (by positivity))
  have hzero : ∀ g : ℝ, g = 0 → ⌊(2 ^ TL_SHIFT : ℝ) * g⌋ = 0 := by
    intro g h
    rw [h, mul_zero, Int.floor_zero]
  refine ⟨⟨hzero _ l8, hzero _ r8⟩, ⟨?_, ?_⟩,
    ⟨hzero _ l7, hmono _ _ (le_of_lt c76), hmono _ _ (le_of_lt c65),
     hmono _ _ (le_of_lt c54), hmono _ _ (le_of_lt c43), hmono _ _ (le_of_lt c32),
     hmono _ _ (le_of_lt c21), hmono _ _ (le_of_lt c10)⟩,
    ⟨hzero _ r9, hmono _ _ (le_of_lt d1), hmono _ _ (le_of_lt d2),
     hmono _ _ (le_of_lt d3), hmono _ _ (le_of_lt d4), hmono _ _ (le_of_lt d5),
     hmono _ _ (le_of_lt d6), hmono _ _ (le_of_lt d7)⟩,
    ⟨l7, c76, c65, c54, c43, c32, c21, c10⟩,
    ⟨r9, d1, d2, d3, d4, d5, d6, d7⟩⟩
  · unfold leftPanTableEntry
    rw [l0]
  · unfold rightPanTableEntry
    rw [r0]

/-! C7: monotone total-level interpolation. -/

/-- Field equations of one total-level render step. -/
theorem renderTL_fields (s : Slot) :
    (renderTotalLevel s).totalLevel =
      (if tlIndex s.totalLevel ≠ s.destTotalLevel then s.totalLevel + s.totalLevelStep
       else s.totalLevel) ∧
    (renderTotalLevel s).destTotalLevel = s.destTotalLevel ∧
    (renderTotalLevel s).totalLevelStep = s.totalLevelStep := by
  unfold renderTotalLevel
  by_cases hne : tlIndex s.totalLevel ≠ s.destTotalLevel
  · rw [if_pos hne, if_pos hne]
    exact ⟨rfl, rfl, rfl⟩
  · rw [if_neg hne, if_neg hne]
    exact ⟨rfl, rfl, rfl⟩

/-- Invariant maintained by the total-level interpolation between render
steps: the level stays inside `[0, 0x80 << TL_SHIFT)`, the destination is
a 7-bit value, and the sign of the interpolation step agrees with the side
of the destination the current level bits are on (`dn` is the negative
"lower" step constant, `up` the positive "raise" one). -/
def TLInv (dn up : ℤ) (s : Slot) : Prop :=
  0 ≤ s.totalLevel ∧ s.totalLevel < 0x80 * 2 ^ TL_SHIFT ∧
  0 ≤ s.destTotalLevel ∧ s.destTotalLevel ≤ 0x7f ∧
  ((s.totalLevelStep = dn ∧ s.destTotalLevel ≤ tlIndex s.totalLevel) ∨
   (s.totalLevelStep = up ∧ tlIndex s.totalLevel ≤ s.destTotalLevel))

/-- One render step preserves the total-level invariant, moves the level
weakly toward the destination and freezes it once the level bits equal the
destination. -/
theorem TLInv_render (dn up : ℤ) (hdn1 : -(2 ^ TL_SHIFT : ℤ) ≤ dn) (hdn2 : dn < 0)
    (hup1 : 0 < up) (hup2 : up ≤ 2 ^ TL_SHIFT) (s : Slot) (h : TLInv dn up s) :
    TLInv dn up (renderTotalLevel s) ∧
    (renderTotalLevel s).destTotalLevel = s.destTotalLevel ∧
    (renderTotalLevel s).totalLevelStep = s.totalLevelStep ∧
    (s.totalLevelStep < 0 → (renderTotalLevel s).totalLevel ≤ s.totalLevel) ∧
    (0 < s.totalLevelStep → s.totalLevel ≤ (renderTotalLevel s).totalLevel) ∧
    (tlIndex s.totalLevel = s.destTotalLevel → renderTotalLevel s = s) := by
  obtain ⟨e1, e2, e3⟩ := renderTL_fields s
  obtain ⟨h1, h2, h3, h4, h5⟩ := h
  refine ⟨?_, e2, e3, ?_, ?_, ?_⟩
  · unfold TLInv
    rw [e1, e2, e3]
    unfold tlIndex TL_SHIFT at *
    by_cases hne : s.totalLevel / 2 ^ 12 ≠ s.destTotalLevel
    · rw [if_pos hne]
      omega
    · rw [if_neg hne]
      omega
  · intro hs
    rw [e1]
    by_cases hne : tlIndex s.totalLevel ≠ s.destTotalLevel
    · rw [if_pos hne]; omega
    · rw [if_neg hne]
  · intro hs
    rw [e1]
    by_cases hne : tlIndex s.totalLevel ≠ s.destTotalLevel
    · rw [if_pos hne]; omega
    · rw [if_neg hne]
  · intro heq
    unfold renderTotalLevel
    rw [if_neg (not_not_intro heq)]

/-- Unfolding of `write_slot` at sub-register 5 for the interpolating case
(low bit of the data byte clear): the destination level is the 7 bits
above the low bit, and the step constant is the "lower" entry when the
current level bits exceed the new destination and the "raise" entry
otherwise. -/
theorem writeSlotTLEq (ctx : Ctx) (s : Slot) (data : ℕ) (hint : data &&& 1 = 0) :
    writeSlot ctx s 5 data =
      (if tlIndex s.totalLevel > (((data >>> 1) &&& 0x7f : ℕ) : ℤ) then
        { s with
            regs := Function.update s.regs 5 data
            destTotalLevel := (((data >>> 1) &&& 0x7f : ℕ) : ℤ)
            totalLevelStep := ctx.totalLevelSteps 0 }
      else
        { s with
            regs := Function.update s.regs 5 data
            destTotalLevel := (((data >>> 1) &&& 0x7f : ℕ) : ℤ)
            totalLevelStep := ctx.totalLevelSteps 1 }) := by
  have hdef : writeSlot ctx s 5 data =
      (if data &&& 1 = 0 then
        (if tlIndex s.totalLevel > (((data >>> 1) &&& 0x7f : ℕ) : ℤ) then
          { s with
              regs := Function.update s.regs 5 data
              destTotalLevel := (((data >>> 1) &&& 0x7f : ℕ) : ℤ)
              totalLevelStep := ctx.totalLevelSteps 0 }
        else
          { s with
              regs := Function.update s.regs 5 data
              destTotalLevel := (((data >>> 1) &&& 0x7f : ℕ) : ℤ)
              totalLevelStep := ctx.totalLevelSteps 1 })
      else
        { s with
            regs := Function.update s.regs 5 data
            destTotalLevel := (((data >>> 1) &&& 0x7f : ℕ) : ℤ)
            totalLevel := (((data >>> 1) &&& 0x7f : ℕ) : ℤ) * 2 ^ TL_SHIFT }) := rfl
  rw [hdef, if_pos hint]

/-- An interpolating write to sub-register 5 establishes the total-level
invariant. -/
theorem writeSlotTL_establishes (ctx : Ctx) (s : Slot) (data : ℕ)
    (hlo : 0 ≤ s.totalLevel) (hhi : s.totalLevel < 0x80 * 2 ^ TL_SHIFT)
    (hint : data &&& 1 = 0) :
    TLInv (ctx.totalLevelSteps 0) (ctx.totalLevelSteps 1) (writeSlot ctx s 5 data) ∧
    (writeSlot ctx s 5 data).totalLevel = s.totalLevel ∧
    (writeSlot ctx s 5 data).destTotalLevel = (((data >>> 1) &&& 0x7f : ℕ) : ℤ) := by
  have hd0 : 0 ≤ (((data >>> 1) &&& 0x7f : ℕ) : ℤ) := Int.natCast_nonneg _
  have hd1 : (((data >>> 1) &&& 0x7f : ℕ) : ℤ) ≤ 0x7f := by
    exact_mod_cast Nat.cast_le.mpr (Nat.and_le_right)
  rw [writeSlotTLEq ctx s data hint]
  by_cases hc : tlIndex s.totalLevel > (((data >>> 1) &&& 0x7f : ℕ) : ℤ)
  · rw [if_pos hc]
    exact ⟨⟨hlo, hhi, hd0, hd1, Or.inl ⟨rfl, le_of_lt hc⟩⟩, rfl, rfl⟩
  · rw [if_neg hc]
    exact ⟨⟨hlo, hhi, hd0, hd1, Or.inr ⟨rfl, not_lt.mp hc⟩⟩, rfl, rfl⟩

/-- C7: after an interpolating destination-level write, every sequence of
render steps keeps the total level inside `[0, 0x80 << TL_SHIFT)`, keeps
the destination and the step constant unchanged, moves the level weakly
toward the destination without crossing to the destination's other side,
and freezes it once its level bits equal the destination.  The step-size
hypotheses are the ranges the initialisation code gives the two step
constants (-152 and +76 on the real chip). -/
theorem total_level_ramp (ctx : Ctx) (s : Slot) (data : ℕ)
    (hdn1 : -(2 ^ TL_SHIFT : ℤ) ≤ ctx.totalLevelSteps 0) (hdn2 : ctx.totalLevelSteps 0 < 0)
    (hup1 : 0 < ctx.totalLevelSteps 1) (hup2 : ctx.totalLevelSteps 1 ≤ 2 ^ TL_SHIFT)
    (hlo : 0 ≤ s.totalLevel) (hhi : s.totalLevel < 0x80 * 2 ^ TL_SHIFT)
    (hint : data &&& 1 = 0) (n : ℕ) :
    (0 ≤ (renderTotalLevel^[n] (writeSlot ctx s 5 data)).totalLevel ∧
     (renderTotalLevel^[n] (writeSlot ctx s 5 data)).totalLevel < 0x80 * 2 ^ TL_SHIFT) ∧
    ((renderTotalLevel^[n] (writeSlot ctx s 5 data)).destTotalLevel =
       (((data >>> 1) &&& 0x7f : ℕ) : ℤ) ∧
     (renderTotalLevel^[n] (writeSlot ctx s 5 data)).totalLevelStep =
       (writeSlot ctx s 5 data).totalLevelStep) ∧
    ((renderTotalLevel^[n] (writeSlot ctx s 5 data)).totalLevelStep < 0 →
      (renderTotalLevel (renderTotalLevel^[n] (writeSlot ctx s 5 data))).totalLevel ≤
        (renderTotalLevel^[n] (writeSlot ctx s 5 data)).totalLevel ∧
      (((data >>> 1) &&& 0x7f : ℕ) : ℤ) ≤
        tlIndex (renderTotalLevel^[n] (writeSlot ctx s 5 data)).totalLevel) ∧
    (0 < (renderTotalLevel^[n] (writeSlot ctx s 5 data)).totalLevelStep →
      (renderTotalLevel^[n] (writeSlot ctx s 5 data)).totalLevel ≤
        (renderTotalLevel (renderTotalLevel^[n] (writeSlot ctx s 5 data))).totalLevel ∧
      tlIndex (renderTotalLevel^[n] (writeSlot ctx s 5 data)).totalLevel ≤
        (((data >>> 1) &&& 0x7f : ℕ) : ℤ)) ∧
    (tlIndex (renderTotalLevel^[n] (writeSlot ctx s 5 data)).totalLevel =
       (((data >>> 1) &&& 0x7f : ℕ) : ℤ) →
      renderTotalLevel (renderTotalLevel^[n] (writeSlot ctx s 5 data)) =
        renderTotalLevel^[n] (writeSlot ctx s 5 data)) := by
  obtain ⟨hinv0, _, hdest0⟩ := writeSlotTL_establishes ctx s data hlo hhi hint
  have main : ∀ m : ℕ,
      TLInv (ctx.totalLevelSteps 0) (ctx.totalLevelSteps 1)
        (renderTotalLevel^[m] (writeSlot ctx s 5 data)) ∧
      (renderTotalLevel^[m] (writeSlot ctx s 5 data)).destTotalLevel =
        (writeSlot ctx s 5 data).destTotalLevel ∧
      (renderTotalLevel^[m] (writeSlot ctx s 5 data)).totalLevelStep =
        (writeSlot ctx s 5 data).totalLevelStep := by
    intro m
    induction m with
    | zero => exact ⟨hinv0, rfl, rfl⟩
    | succ k ih =>
      obtain ⟨ihinv, ihdest, ihstep⟩ := ih
      obtain ⟨pinv, pdest, pstep, _, _, _⟩ :=
        TLInv_render _ _ hdn1 hdn2 hup1 hup2 _ ihinv
      rw [Function.iterate_succ_apply']
      exact ⟨pinv, pdest.trans ihdest, pstep.trans ihstep⟩
  obtain ⟨minv, mdest, mstep⟩ := main n
  obtain ⟨_, _, _, hmono1, hmono2, hstop⟩ :=
    TLInv_render _ _ hdn1 hdn2 hup1 hup2 _ minv
  obtain ⟨i1, i2, _, _, idir⟩ := minv
  refine ⟨⟨i1, i2⟩, ⟨mdest.trans hdest0, mstep⟩, ?_, ?_, ?_⟩
  · intro hs
    refine ⟨hmono1 hs, ?_⟩
    rcases idir with ⟨_, hge⟩ | ⟨hstep, _⟩
    · rw [← hdest0, ← mdest]
      exact hge
    · exact absurd hs (by rw [hstep]; exact not_lt.mpr (le_of_lt hup1))
  · intro hs
    refine ⟨hmono2 hs, ?_⟩
    rcases idir with ⟨hstep, _⟩ | ⟨_, hle⟩
    · exact absurd hs (by rw [hstep]; exact not_lt.mpr (le_of_lt hdn2))
    · rw [← hdest0, ← mdest]
      exact hle
  · intro heq
    refine hstop ?_
    rw [heq, ← hdest0, ← mdest]

/-- C7 witness: a destination write of level 0x20 (interpolating) on the
concrete context (steps -152 and +76), after three render steps. -/
theorem total_level_ramp_witness :
    (0 ≤ (renderTotalLevel^[3] (writeSlot ctxC slotC 5 0x40)).totalLevel ∧
     (renderTotalLevel^[3] (writeSlot ctxC slotC 5 0x40)).totalLevel < 0x80 * 2 ^ TL_SHIFT) ∧
    ((renderTotalLevel^[3] (writeSlot ctxC slotC 5 0x40)).destTotalLevel =
       (((0x40 >>> 1) &&& 0x7f : ℕ) : ℤ) ∧
     (renderTotalLevel^[3] (writeSlot ctxC slotC 5 0x40)).totalLevelStep =
       (writeSlot ctxC slotC 5 0x40).totalLevelStep) := by
  have h := total_level_ramp ctxC slotC 0x40 (by decide) (by decide) (by decide)
    (by decide) (by decide) (by decide) (by decide) 3
  exact ⟨h.1, h.2.1⟩

end MultiPCM
